import Mathlib

/-!
Shallow embedding of `fetch_youtube_data.py`: a batch pipeline that resolves
a channel handle, locates its uploads playlist, lists videos in a date
window, enriches them with details and transcripts, and writes CSV plus
transcript files.  External services (search, channels, playlist pages,
batched details, transcripts) are passed in as explicit data or functions;
timestamps are integers (seconds since epoch, UTC).
-/

namespace YTFetch

/-- A UTC instant, in seconds since an arbitrary epoch. -/
abbrev Timestamp := Int

/-- Seconds in one day; used to model `datetime` date arithmetic. -/
def secondsPerDay : Int := 86400

/-- Models `datetime.strptime(s, "%Y-%m-%d").replace(tzinfo=timezone.utc)`:
a calendar date (represented by its day number since the epoch) becomes the
UTC instant at 00:00:00 of that day. -/
def dateToUtcMidnight (day : Int) : Timestamp := day * secondsPerDay

/-- The date window computed by `main` from the two `YYYY-MM-DD` arguments
(lines 134-135): both bounds are parsed with the same date-only format, so
both are midnight instants of their respective days. -/
def mainWindow (startDay endDay : Int) : Timestamp × Timestamp :=
  (dateToUtcMidnight startDay, dateToUtcMidnight endDay)

/-- One item of a channel-search response: the code reads
`items[0]['snippet']['channelId']`. -/
structure SearchItem where
  channelId : String
deriving DecidableEq, Repr

/-- One item of a channels-list response: the code reads
`items[0]['contentDetails']['relatedPlaylists']['uploads']`. -/
structure ChannelItem where
  uploads : String
deriving DecidableEq, Repr

/-- Errors the pipeline can raise.  The Python code raises `ValueError` for
both configuration and not-found failures; the spec names them
`ConfigurationError` and `NotFoundError`.  Unclassified transcript failures
propagate as-is. -/
inductive TranscriptError where
  | transcriptsDisabled
  | noTranscriptFound
  | other (msg : String)
deriving DecidableEq, Repr

inductive RunError where
  | configError (msg : String)
  | notFound (msg : String)
  | transcript (e : TranscriptError)
deriving DecidableEq, Repr

/-- `search_channel_id` (lines 31-41): strips leading `@` from the handle,
queries the search service, raises when zero items come back, otherwise
returns the first item's channel id.  `searchApi` models
`youtube.search().list(q=handle, type='channel', maxResults=1).execute()`,
giving the response items for a query string. -/
def search_channel_id (searchApi : String → List SearchItem) (handle : String) :
    Except RunError String :=
  let h := handle.dropWhile (· == '@')
  match searchApi h with
  | [] => .error (.notFound ("Channel with handle " ++ h ++ " not found"))
  | it :: _ => .ok it.channelId

/-- `get_uploads_playlist_id` (lines 44-53): queries the channels service by
id, raises when zero items come back, otherwise returns the first item's
uploads playlist id. -/
def get_uploads_playlist_id (channelsApi : String → List ChannelItem)
    (channel_id : String) : Except RunError String :=
  match channelsApi channel_id with
  | [] => .error (.notFound ("Channel " ++ channel_id ++ " not found"))
  | it :: _ => .ok it.uploads

/-- One playlist item as consumed by `list_videos`: the code reads
`item['contentDetails']['videoId']` and parses
`item['contentDetails']['videoPublishedAt']` with `dateutil`; we model the
already-parsed instant. -/
structure PlaylistItem where
  videoId : String
  publishedAt : Timestamp
deriving DecidableEq, Repr

/-- One page of a playlist-items response: its items and whether
`response.get('nextPageToken')` is present (truthy). -/
structure Page where
  items : List PlaylistItem
  hasNextPageToken : Bool
deriving DecidableEq, Repr

/-- Observable outcome of one run of the `list_videos` loop. -/
structure ListerRun where
  videos : List (String × Timestamp)
  pagesVisited : Nat
  itemsScanned : Nat
deriving DecidableEq, Repr

/-- The per-page body of the loop in `list_videos` (lines 68-73): the
`(videoId, published)` pairs of the items whose parsed publish instant
satisfies `start_date <= published <= end_date`. -/
def pageHits (start_date end_date : Timestamp) (p : Page) :
    List (String × Timestamp) :=
  (p.items.filter fun it =>
      decide (start_date ≤ it.publishedAt) && decide (it.publishedAt ≤ end_date)).map
    fun it => (it.videoId, it.publishedAt)

/-- The `while True` pagination loop of `list_videos` (lines 63-76): each
iteration fetches the next page, appends its in-window items, and breaks
when the page carries no continuation token.  The upstream page sequence is
the list `pages`; if a page claims a continuation token but the upstream
has no further page, the loop observes an empty remainder. -/
def list_videos_run (start_date end_date : Timestamp) :
    List Page → ListerRun
  | [] => ⟨[], 0, 0⟩
  | p :: rest =>
    if p.hasNextPageToken then
      ⟨pageHits start_date end_date p ++
          (list_videos_run start_date end_date rest).videos,
        (list_videos_run start_date end_date rest).pagesVisited + 1,
        p.items.length + (list_videos_run start_date end_date rest).itemsScanned⟩
    else
      ⟨pageHits start_date end_date p, 1, p.items.length⟩

/-- `list_videos` returns only the accumulated `videos` list (line 78). -/
def list_videos (start_date end_date : Timestamp) (pages : List Page) :
    List (String × Timestamp) :=
  (list_videos_run start_date end_date pages).videos

/-- A well-formed finite page sequence: the continuation token is present on
every page except the last (and there is at least the one page the loop
always requests first). -/
def tokenChainOk : List Page → Bool
  | [] => false
  | [p] => !p.hasNextPageToken
  | p :: q :: rest => p.hasNextPageToken && tokenChainOk (q :: rest)

/-- One item of a batched `videos().list` response as read by
`get_video_details` (lines 86-97): `item['id']`, `snippet['title']`,
`snippet.get('description', '')`, `snippet['publishedAt']`, and the three
statistics read with `.get(..., '0')`. -/
structure DetailItem where
  id : String
  title : String
  description : Option String
  publishedAt : String
  viewCount : Option String
  likeCount : Option String
  commentCount : Option String
deriving DecidableEq, Repr

/-- The per-video detail dict built by `get_video_details`. -/
structure VideoDetail where
  title : String
  description : String
  publishedAt : String
  viewCount : String
  likeCount : String
  commentCount : String
deriving DecidableEq, Repr

/-- The dict entry `details[vid] = {...}` (lines 90-97). -/
def toDetail (it : DetailItem) : VideoDetail :=
  { title := it.title
    description := it.description.getD ""
    publishedAt := it.publishedAt
    viewCount := it.viewCount.getD "0"
    likeCount := it.likeCount.getD "0"
    commentCount := it.commentCount.getD "0" }

/-- `get_video_details` (lines 81-98) as a lookup: the Python dict keeps the
last item for a repeated id, so a lookup finds the last response item with
the given id. -/
def get_video_details (items : List DetailItem) : String → Option VideoDetail :=
  fun vid => ((items.filter fun it => it.id == vid).getLast?).map toDetail

/-- One timed transcript segment; `fetch_transcript` uses only its text. -/
structure TranscriptSegment where
  text : String
  startTime : Int
  duration : Int
deriving DecidableEq, Repr

/-- `fetch_transcript` (lines 101-109): on success, the newline-join of the
segment texts in order; `TranscriptsDisabled` and `NoTranscriptFound` are
caught and mapped to the empty string; any other exception escapes the
`except` clause and propagates.  `tapi` models
`YouTubeTranscriptApi.get_transcript`. -/
def fetch_transcript
    (tapi : String → Except TranscriptError (List TranscriptSegment))
    (video_id : String) : Except TranscriptError String :=
  match tapi video_id with
  | .ok segs => .ok (String.intercalate "\n" (segs.map (·.text)))
  | .error .transcriptsDisabled => .ok ""
  | .error .noTranscriptFound => .ok ""
  | .error (.other msg) => .error (.other msg)

/-- The final merged record appended by `main` (lines 148-158).  Detail
fields come from `info.get(...)` on a possibly-empty dict, hence `Option`. -/
structure VideoRecord where
  video_id : String
  publishedAt : Option String
  title : Option String
  description : Option String
  viewCount : Option String
  likeCount : Option String
  commentCount : Option String
  transcript_path : String
  transcript : String
deriving DecidableEq, Repr

/-- Models `os.path.join` for the relative paths this program joins. -/
def pathJoin (a b : String) : String := a ++ "/" ++ b

/-- The record dict literal of `main` (lines 146-158): `info` is
`details.get(vid, {})`, every detail field is `info.get(key)` (None when the
id was absent from the batch response), the transcript path is
`os.path.join('transcripts', f"{vid}.txt")`. -/
def mkRecord (details : String → Option VideoDetail) (vid : String)
    (transcript : String) : VideoRecord :=
  let info := details vid
  { video_id := vid
    publishedAt := info.map (·.publishedAt)
    title := info.map (·.title)
    description := info.map (·.description)
    viewCount := info.map (·.viewCount)
    likeCount := info.map (·.likeCount)
    commentCount := info.map (·.commentCount)
    transcript_path := pathJoin "transcripts" (vid ++ ".txt")
    transcript := transcript }

/-- The chunking of `for i in range(0, len(vids), 50): vids[i:i+50]`
generalised to any positive chunk size `k`. -/
def chunked (k : Nat) (l : List α) : List (List α) :=
  match l with
  | [] => []
  | x :: xs =>
    if k = 0 then [x :: xs]
    else (x :: xs).take k :: chunked k ((x :: xs).drop k)
termination_by l.length
decreasing_by
  simp only [List.length_drop, List.length_cons]
  omega

/-- The inner per-video loop of a chunk (lines 145-158): for each listed
video, fetch its transcript (recording the call), abort on an uncaught
transcript error, otherwise append the merged record.  Returns the
transcript calls actually issued (in order) and either the records or the
propagated error. -/
def enrichChunkVideos
    (tapi : String → Except TranscriptError (List TranscriptSegment))
    (details : String → Option VideoDetail) :
    List (String × Timestamp) →
      List String × Except TranscriptError (List VideoRecord)
  | [] => ([], .ok [])
  | (vid, _) :: rest =>
    match fetch_transcript tapi vid with
    | .error e => ([vid], .error e)
    | .ok t =>
      (vid :: (enrichChunkVideos tapi details rest).1,
        match (enrichChunkVideos tapi details rest).2 with
        | .error e => .error e
        | .ok recs => .ok (mkRecord details vid t :: recs))

/-- The chunk loop of `main` (lines 141-158): one batched
`get_video_details` call per chunk (its id list recorded), then the
per-video inner loop; later chunks are not reached after an error.  Returns
the batched calls, the transcript calls, and the records or the error. -/
def enrichChunks (dapi : List String → List DetailItem)
    (tapi : String → Except TranscriptError (List TranscriptSegment)) :
    List (List (String × Timestamp)) →
      List (List String) × List String ×
        Except TranscriptError (List VideoRecord)
  | [] => ([], [], .ok [])
  | chunk :: rest =>
    match
      enrichChunkVideos tapi
        (get_video_details (dapi (chunk.map (·.1)))) chunk with
    | (tcalls, .error e) => ([chunk.map (·.1)], tcalls, .error e)
    | (tcalls, .ok recs) =>
      (chunk.map (·.1) :: (enrichChunks dapi tapi rest).1,
        tcalls ++ (enrichChunks dapi tapi rest).2.1,
        match (enrichChunks dapi tapi rest).2.2 with
        | .error e => .error e
        | .ok recs2 => .ok (recs ++ recs2))

/-- The enrichment phase of `main` applied to the listed videos. -/
def main_enrich (dapi : List String → List DetailItem)
    (tapi : String → Except TranscriptError (List TranscriptSegment))
    (vids : List (String × Timestamp)) :
    List (List String) × List String ×
      Except TranscriptError (List VideoRecord) :=
  enrichChunks dapi tapi (chunked 50 vids)

/-- The CSV field names of `save_output` (line 118). -/
def fieldnames : List String :=
  ["video_id", "publishedAt", "title", "description", "viewCount",
   "likeCount", "commentCount", "transcript_path"]

/-- `{k: video.get(k, '') for k in fieldnames}` (line 129): the value
written for one field of one record; the `csv` module writes `None` as the
empty string. -/
def recordField (v : VideoRecord) : String → String
  | "video_id" => v.video_id
  | "publishedAt" => v.publishedAt.getD ""
  | "title" => v.title.getD ""
  | "description" => v.description.getD ""
  | "viewCount" => v.viewCount.getD ""
  | "likeCount" => v.likeCount.getD ""
  | "commentCount" => v.commentCount.getD ""
  | "transcript_path" => v.transcript_path
  | _ => ""

/-- Observable filesystem effects of `save_output`. -/
structure SaveResult where
  dirsCreated : List String
  csvHeader : List String
  csvRows : List (List String)
  files : List (String × String)
deriving DecidableEq, Repr

/-- `save_output` (lines 112-129): creates the output dir and the
transcripts subdir, writes the header, then for each record in order writes
its transcript file (only when the transcript string is truthy, i.e.
non-empty) and its CSV row. -/
def save_output (videos : List VideoRecord) (output_dir : String := "output") :
    SaveResult :=
  { dirsCreated := [output_dir, pathJoin output_dir "transcripts"]
    csvHeader := fieldnames
    csvRows := videos.map fun v => fieldnames.map (recordField v)
    files := (videos.filter fun v => v.transcript != "").map fun v =>
      (pathJoin output_dir (pathJoin "transcripts" (v.video_id ++ ".txt")),
        v.transcript) }

/-- The tail of `main` after listing (lines 139-159): enrich the listed
videos and, when no error propagated, save the records. -/
def run_after_listing (dapi : List String → List DetailItem)
    (tapi : String → Except TranscriptError (List TranscriptSegment))
    (vids : List (String × Timestamp)) (output_dir : String) :
    Except TranscriptError SaveResult :=
  match (main_enrich dapi tapi vids).2.2 with
  | .error e => .error e
  | .ok recs => .ok (save_output recs output_dir)

/-! Helper lemmas about the chunking of `range(0, len(vids), 50)`. -/

theorem chunked_flatten (k : Nat) (l : List α) : (chunked k l).flatten = l :=
  match l with
  | [] => by rw [chunked]; rfl
  | x :: xs => by
    rw [chunked]
    by_cases hk : k = 0
    · simp [hk]
    · rw [if_neg hk]
      have ih := chunked_flatten k ((x :: xs).drop k)
      simp [List.flatten_cons, ih]
termination_by l.length
decreasing_by
  simp only [List.length_drop, List.length_cons]
  omega

theorem chunked_length_50 (l : List α) :
    (chunked 50 l).length = (l.length + 49) / 50 :=
  match l with
  | [] => by rw [chunked]; simp
  | x :: xs => by
    rw [chunked]
    rw [if_neg (by omega : ¬(50 = 0))]
    have ih := chunked_length_50 ((x :: xs).drop 50)
    simp only [List.length_cons, List.length_drop] at ih ⊢
    rw [ih]
    omega
termination_by l.length
decreasing_by
  simp only [List.length_drop, List.length_cons]
  omega

theorem chunked_sizes_50 (l : List α) (c : List α) (hc : c ∈ chunked 50 l) :
    c.length ≤ 50 :=
  match l with
  | [] => by rw [chunked] at hc; simp at hc
  | x :: xs => by
    rw [chunked] at hc
    rw [if_neg (by omega : ¬(50 = 0))] at hc
    rcases List.mem_cons.mp hc with h | h
    · subst h
      simp only [List.length_take]
      omega
    · exact chunked_sizes_50 ((x :: xs).drop 50) c h
termination_by l.length
decreasing_by
  simp only [List.length_drop, List.length_cons]
  omega

/-- C1: for every date window `[s, e]` with `s ≤ e`, every
`(video_id, published_at)` pair returned by `list_videos` satisfies
`s ≤ published_at ≤ e`; an item whose publish instant lies strictly outside
the window never appears in the output, on any page. -/
theorem C1_window_filter (s e : Timestamp) (pages : List Page) (hse : s ≤ e)
    (v : String × Timestamp) (hv : v ∈ list_videos s e pages) :
    s ≤ v.2 ∧ v.2 ≤ e := by
  induction pages with
  | nil => simp [list_videos, list_videos_run] at hv
  | cons p rest ih =>
    simp only [list_videos, list_videos_run] at hv
    split at hv
    · simp only [pageHits, List.mem_append, List.mem_map, List.mem_filter,
        Bool.and_eq_true, decide_eq_true_eq] at hv
      rcases hv with ⟨it, ⟨_, h1, h2⟩, rfl⟩ | hv
      · exact ⟨h1, h2⟩
      · exact ih hv
    · simp only [pageHits, List.mem_map, List.mem_filter, Bool.and_eq_true,
        decide_eq_true_eq] at hv
      rcases hv with ⟨it, ⟨_, h1, h2⟩, rfl⟩
      exact ⟨h1, h2⟩

theorem C1_witness : (0 : Int) ≤ 5 ∧ (5 : Int) ≤ 10 :=
  C1_window_filter 0 10 [⟨[⟨"a", 5⟩], false⟩] (by decide) ("a", 5) (by decide)

/-- C5: for a finite page sequence whose continuation token is present on
every page except the last, the lister visits every page exactly once and
scans a total number of items equal to the sum of the per-page item counts,
independent of the filter window (the right-hand sides mention only the
pages, not `s` or `e`). -/
theorem C5_pagination (s e : Timestamp) (pages : List Page)
    (h : tokenChainOk pages = true) :
    (list_videos_run s e pages).pagesVisited = pages.length ∧
    (list_videos_run s e pages).itemsScanned =
      (pages.map fun p => p.items.length).sum := by
  induction pages with
  | nil => simp [tokenChainOk] at h
  | cons p rest ih =>
    cases rest with
    | nil =>
      simp only [tokenChainOk, Bool.not_eq_true'] at h
      rw [list_videos_run, if_neg (by rw [h]; exact Bool.false_ne_true)]
      simp
    | cons q rest' =>
      simp only [tokenChainOk, Bool.and_eq_true] at h
      have ih' := ih h.2
      rw [list_videos_run, if_pos h.1]
      refine ⟨?_, ?_⟩
      · show (list_videos_run s e (q :: rest')).pagesVisited + 1 = _
        rw [ih'.1]
        rfl
      · show p.items.length + (list_videos_run s e (q :: rest')).itemsScanned = _
        rw [ih'.2]
        simp

theorem C5_witness :
    (list_videos_run 0 10
      [⟨[⟨"a", 1⟩, ⟨"b", 20⟩], true⟩, ⟨[⟨"c", 5⟩], false⟩]).pagesVisited = 2 ∧
    (list_videos_run 0 10
      [⟨[⟨"a", 1⟩, ⟨"b", 20⟩], true⟩, ⟨[⟨"c", 5⟩], false⟩]).itemsScanned = 3 :=
  C5_pagination 0 10 [⟨[⟨"a", 1⟩, ⟨"b", 20⟩], true⟩, ⟨[⟨"c", 5⟩], false⟩]
    (by decide)

/-- C2: `main` parses both `YYYY-MM-DD` arguments with the same date-only
format, so the end bound of the window is the end day's 00:00:00 UTC, not
the end of that day.  Concretely, for the window from day 0 to day 0, an
item published at 23:59:59 UTC on day 0 (instant 86399, which lies inside
the end calendar day) is excluded from the lister's output — contradicting
the claim that the window covers the entirety of the end day. -/
theorem C2_end_day_not_covered :
    (mainWindow 0 0).2 = dateToUtcMidnight 0 ∧
    dateToUtcMidnight 0 ≤ 86399 ∧ 86399 < dateToUtcMidnight 1 ∧
    list_videos (mainWindow 0 0).1 (mainWindow 0 0).2
      [⟨[⟨"a", 86399⟩], false⟩] = [] := by
  refine ⟨rfl, by decide, by decide, by decide⟩

/-- C3: `fetch_transcript` maps exactly the two upstream conditions
`TranscriptsDisabled` and `NoTranscriptFound` to the empty string, and the
run continues (an in-window successor chunk item is still processed); any
other exception type is not caught and propagates, aborting the enrichment
loop; on success the result is the newline-joined concatenation of the
segment texts in their original order. -/
theorem C3_transcript_mapping
    (tapi : String → Except TranscriptError (List TranscriptSegment))
    (vid : String) :
    (tapi vid = .error .transcriptsDisabled →
      fetch_transcript tapi vid = .ok "") ∧
    (tapi vid = .error .noTranscriptFound →
      fetch_transcript tapi vid = .ok "") ∧
    (∀ msg, tapi vid = .error (.other msg) →
      fetch_transcript tapi vid = .error (.other msg)) ∧
    (∀ segs, tapi vid = .ok segs →
      fetch_transcript tapi vid =
        .ok (String.intercalate "\n" (segs.map (·.text)))) ∧
    (∀ details pub rest recs, tapi vid = .error .transcriptsDisabled →
      (enrichChunkVideos tapi details rest).2 = .ok recs →
      (enrichChunkVideos tapi details ((vid, pub) :: rest)).2 =
        .ok (mkRecord details vid "" :: recs)) ∧
    (∀ msg details pub rest, tapi vid = .error (.other msg) →
      (enrichChunkVideos tapi details ((vid, pub) :: rest)).2 =
        .error (.other msg)) := by
  refine ⟨?_, ?_, ?_, ?_, ?_, ?_⟩
  · intro h; simp [fetch_transcript, h]
  · intro h; simp [fetch_transcript, h]
  · intro msg h; simp [fetch_transcript, h]
  · intro segs h; simp [fetch_transcript, h]
  · intro details pub rest recs h hrest
    have hft : fetch_transcript tapi vid = .ok "" := by
      simp [fetch_transcript, h]
    simp [enrichChunkVideos, hft, hrest]
  · intro msg details pub rest h
    have hft : fetch_transcript tapi vid = .error (.other msg) := by
      simp [fetch_transcript, h]
    simp [enrichChunkVideos, hft]

theorem C3_witness :
    fetch_transcript (fun _ => .error .transcriptsDisabled) "a" = .ok "" ∧
    fetch_transcript (fun _ => .error .noTranscriptFound) "a" = .ok "" ∧
    fetch_transcript (fun _ => .error (.other "quota")) "a" =
      .error (.other "quota") ∧
    fetch_transcript (fun _ => .ok [⟨"x", 0, 1⟩, ⟨"y", 1, 1⟩]) "a" =
      .ok (String.intercalate "\n" ["x", "y"]) ∧
    (enrichChunkVideos (fun _ => .error (.other "quota")) (fun _ => none)
      [("a", 0)]).2 = .error (.other "quota") :=
  ⟨(C3_transcript_mapping (fun _ => .error .transcriptsDisabled) "a").1 rfl,
   (C3_transcript_mapping (fun _ => .error .noTranscriptFound) "a").2.1 rfl,
   (C3_transcript_mapping (fun _ => .error (.other "quota")) "a").2.2.1
     "quota" rfl,
   (C3_transcript_mapping (fun _ => .ok [⟨"x", 0, 1⟩, ⟨"y", 1, 1⟩]) "a").2.2.2.1
     [⟨"x", 0, 1⟩, ⟨"y", 1, 1⟩] rfl,
   (C3_transcript_mapping (fun _ => .error (.other "quota")) "a").2.2.2.2.2
     "quota" (fun _ => none) 0 [] rfl⟩

/-- C9: `search_channel_id` raises the not-found error exactly when the
channel search (issued for the handle with its leading `@` stripped)
returns zero items, and otherwise returns the first result's channel id;
`get_uploads_playlist_id` raises the not-found error exactly when the
channel lookup returns zero items, and otherwise returns the first item's
uploads playlist id.  In both functions the error is returned directly: no
fallback call is made. -/
theorem C9_not_found (sapi : String → List SearchItem)
    (capi : String → List ChannelItem) (handle cid : String) :
    ((∃ msg, search_channel_id sapi handle = .error (.notFound msg)) ↔
      sapi (handle.dropWhile (· == '@')) = []) ∧
    (∀ it rest, sapi (handle.dropWhile (· == '@')) = it :: rest →
      search_channel_id sapi handle = .ok it.channelId) ∧
    ((∃ msg, get_uploads_playlist_id capi cid = .error (.notFound msg)) ↔
      capi cid = []) ∧
    (∀ it rest, capi cid = it :: rest →
      get_uploads_playlist_id capi cid = .ok it.uploads) := by
  refine ⟨?_, ?_, ?_, ?_⟩
  · cases hs : sapi (handle.dropWhile (· == '@')) with
    | nil =>
      simp only [search_channel_id, hs]
      exact ⟨fun _ => trivial, fun _ =>
        ⟨"Channel with handle " ++ handle.dropWhile (· == '@') ++ " not found",
          rfl⟩⟩
    | cons it rest =>
      simp only [search_channel_id, hs]
      constructor
      · rintro ⟨msg, hmsg⟩; cases hmsg
      · intro h; cases h
  · intro it rest h
    simp only [search_channel_id, h]
  · cases hc : capi cid with
    | nil =>
      simp only [get_uploads_playlist_id, hc]
      exact ⟨fun _ => trivial, fun _ =>
        ⟨"Channel " ++ cid ++ " not found", rfl⟩⟩
    | cons it rest =>
      simp only [get_uploads_playlist_id, hc]
      constructor
      · rintro ⟨msg, hmsg⟩; cases hmsg
      · intro h; cases h
  · intro it rest h
    simp only [get_uploads_playlist_id, h]

theorem C9_witness :
    search_channel_id (fun _ => [⟨"UC123"⟩]) "@h" = .ok "UC123" ∧
    get_uploads_playlist_id (fun _ => [⟨"UU123"⟩]) "UC123" = .ok "UU123" :=
  ⟨(C9_not_found (fun _ => [⟨"UC123"⟩]) (fun _ => [⟨"UU123"⟩]) "@h"
      "UC123").2.1 ⟨"UC123"⟩ [] rfl,
   (C9_not_found (fun _ => [⟨"UC123"⟩]) (fun _ => [⟨"UU123"⟩]) "@h"
      "UC123").2.2.2 ⟨"UU123"⟩ [] rfl⟩

/-- When the inner per-video loop of a chunk completes without an uncaught
transcript error, it issued one transcript call per chunk entry, in chunk
order, and produced exactly one record per entry, in order, keyed by the
entry's video id. -/
theorem enrichChunkVideos_ok
    (tapi : String → Except TranscriptError (List TranscriptSegment))
    (details : String → Option VideoDetail)
    (chunk : List (String × Timestamp)) (recs : List VideoRecord)
    (h : (enrichChunkVideos tapi details chunk).2 = .ok recs) :
    (enrichChunkVideos tapi details chunk).1 = chunk.map (·.1) ∧
    recs.map (·.video_id) = chunk.map (·.1) := by
  induction chunk generalizing recs with
  | nil =>
    simp only [enrichChunkVideos] at h ⊢
    obtain rfl : recs = [] := by
      simpa using h.symm
    simp
  | cons p rest ih =>
    obtain ⟨vid, pub⟩ := p
    cases hft : fetch_transcript tapi vid with
    | error e =>
      simp only [enrichChunkVideos, hft] at h
      simp at h
    | ok t =>
      simp only [enrichChunkVideos, hft] at h ⊢
      cases hr : (enrichChunkVideos tapi details rest).2 with
      | error e => rw [hr] at h; simp at h
      | ok recs1 =>
        rw [hr] at h
        obtain rfl : recs = mkRecord details vid t :: recs1 := by
          simpa using h.symm
        obtain ⟨hc, hm⟩ := ih recs1 hr
        simp [hc, hm, mkRecord]

/-- When the chunk loop of `main` completes without an uncaught transcript
error, the batched detail calls are exactly the per-chunk id lists in
order, the transcript calls are exactly the chunk ids flattened in order,
and the records carry exactly the chunk ids in order. -/
theorem enrichChunks_ok (dapi : List String → List DetailItem)
    (tapi : String → Except TranscriptError (List TranscriptSegment))
    (chunks : List (List (String × Timestamp))) (recs : List VideoRecord)
    (h : (enrichChunks dapi tapi chunks).2.2 = .ok recs) :
    (enrichChunks dapi tapi chunks).1 = chunks.map (fun c => c.map (·.1)) ∧
    (enrichChunks dapi tapi chunks).2.1 =
      (chunks.map (fun c => c.map (·.1))).flatten ∧
    recs.map (·.video_id) = (chunks.map (fun c => c.map (·.1))).flatten := by
  induction chunks generalizing recs with
  | nil =>
    simp only [enrichChunks] at h ⊢
    obtain rfl : recs = [] := by
      simpa using h.symm
    simp
  | cons chunk rest ih =>
    cases hcv : enrichChunkVideos tapi
        (get_video_details (dapi (chunk.map (·.1)))) chunk with
    | mk tcalls r =>
      cases r with
      | error e =>
        simp only [enrichChunks, hcv] at h
        simp at h
      | ok recs1 =>
        simp only [enrichChunks, hcv] at h ⊢
        cases hr2 : (enrichChunks dapi tapi rest).2.2 with
        | error e => rw [hr2] at h; simp at h
        | ok recs2 =>
          rw [hr2] at h
          obtain rfl : recs = recs1 ++ recs2 := by
            simpa using h.symm
          obtain ⟨hd2, ht2, hm2⟩ := ih recs2 hr2
          obtain ⟨hc1, hm1⟩ := enrichChunkVideos_ok tapi
            (get_video_details (dapi (chunk.map (·.1)))) chunk recs1
            (by rw [hcv])
          have htc : tcalls = chunk.map (·.1) := by
            rw [hcv] at hc1
            simpa using hc1
          simp [hd2, ht2, hm2, hm1, htc]

/-- C4: for a listed sequence of `n` video refs whose enrichment completes,
`main` issues exactly `ceil(n / 50)` batched detail calls, each over at most
50 ids with the chunks taken in order, and exactly `n` individual
transcript calls, one per video, in the listed order. -/
theorem C4_batching (dapi : List String → List DetailItem)
    (tapi : String → Except TranscriptError (List TranscriptSegment))
    (vids : List (String × Timestamp)) (recs : List VideoRecord)
    (h : (main_enrich dapi tapi vids).2.2 = .ok recs) :
    (main_enrich dapi tapi vids).1.length = (vids.length + 49) / 50 ∧
    (∀ c ∈ (main_enrich dapi tapi vids).1, c.length ≤ 50) ∧
    (main_enrich dapi tapi vids).1.flatten = vids.map (·.1) ∧
    (main_enrich dapi tapi vids).2.1 = vids.map (·.1) := by
  obtain ⟨hd, ht, _⟩ := enrichChunks_ok dapi tapi (chunked 50 vids) recs h
  have hflat : ((chunked 50 vids).map (fun c => c.map (·.1))).flatten =
      vids.map (·.1) := by
    rw [← List.map_flatten, chunked_flatten]
  refine ⟨?_, ?_, ?_, ?_⟩
  · show (enrichChunks dapi tapi (chunked 50 vids)).1.length = _
    rw [hd, List.length_map, chunked_length_50]
  · intro c hc
    rw [show (main_enrich dapi tapi vids).1 =
        (chunked 50 vids).map (fun c => c.map (·.1)) from hd] at hc
    rcases List.mem_map.mp hc with ⟨chunk, hchunk, rfl⟩
    simpa using chunked_sizes_50 vids chunk hchunk
  · show (enrichChunks dapi tapi (chunked 50 vids)).1.flatten = _
    rw [hd, hflat]
  · show (enrichChunks dapi tapi (chunked 50 vids)).2.1 = _
    rw [ht, hflat]

theorem C4_witness :
    (main_enrich (fun _ => []) (fun _ => .error .transcriptsDisabled)
      [("a", 0), ("b", 1)]).1.length = 1 ∧
    (main_enrich (fun _ => []) (fun _ => .error .transcriptsDisabled)
      [("a", 0), ("b", 1)]).2.1 = ["a", "b"] := by
  have h : (main_enrich (fun _ => []) (fun _ => .error .transcriptsDisabled)
      [("a", 0), ("b", 1)]).2.2 =
      .ok [mkRecord (get_video_details []) "a" "",
           mkRecord (get_video_details []) "b" ""] := by
    simp [main_enrich, enrichChunks, enrichChunkVideos, fetch_transcript,
      chunked]
  exact ⟨(C4_batching (fun _ => []) (fun _ => .error .transcriptsDisabled)
      [("a", 0), ("b", 1)] _ h).1,
    (C4_batching (fun _ => []) (fun _ => .error .transcriptsDisabled)
      [("a", 0), ("b", 1)] _ h).2.2.2⟩

/-- C6: when the enrichment completes, the final record sequence contains
exactly one record per listed video, in listing order (so an id absent from
a batched detail response is not dropped); and the record constructed for a
video id on which the detail lookup comes back empty still carries that id,
with every detail field `none`. -/
theorem C6_missing_detail (dapi : List String → List DetailItem)
    (tapi : String → Except TranscriptError (List TranscriptSegment))
    (vids : List (String × Timestamp)) (recs : List VideoRecord)
    (h : (main_enrich dapi tapi vids).2.2 = .ok recs) :
    recs.map (·.video_id) = vids.map (·.1) ∧
    (∀ details vid tr, details vid = none →
      (mkRecord details vid tr).video_id = vid ∧
      (mkRecord details vid tr).publishedAt = none ∧
      (mkRecord details vid tr).title = none ∧
      (mkRecord details vid tr).description = none ∧
      (mkRecord details vid tr).viewCount = none ∧
      (mkRecord details vid tr).likeCount = none ∧
      (mkRecord details vid tr).commentCount = none ∧
      (mkRecord details vid tr).transcript = tr) := by
  obtain ⟨_, _, hm⟩ := enrichChunks_ok dapi tapi (chunked 50 vids) recs h
  constructor
  · rw [hm, ← List.map_flatten, chunked_flatten]
  · intro details vid tr hnone
    simp [mkRecord, hnone]

theorem C6_witness :
    [mkRecord (get_video_details []) "a" ""].map (·.video_id) = ["a"] ∧
    (mkRecord (fun _ => none) "a" "txt").title = none := by
  have h : (main_enrich (fun _ => []) (fun _ => .error .transcriptsDisabled)
      [("a", 0)]).2.2 = .ok [mkRecord (get_video_details []) "a" ""] := by
    simp [main_enrich, enrichChunks, enrichChunkVideos, fetch_transcript,
      chunked]
  exact ⟨(C6_missing_detail (fun _ => [])
      (fun _ => .error .transcriptsDisabled) [("a", 0)] _ h).1,
    ((C6_missing_detail (fun _ => [])
      (fun _ => .error .transcriptsDisabled) [("a", 0)] _ h).2
      (fun _ => none) "a" "txt" rfl).2.2.1⟩

/-- C7: every record constructed by the orchestration has
`transcript_path = "transcripts/" ++ video_id ++ ".txt"`, independent of
its transcript; and the `transcript_path` cell of a record's CSV row (column
index 7) is that stored value verbatim. -/
theorem C7_transcript_path_invariant (details : String → Option VideoDetail)
    (vid tr : String) (videos : List VideoRecord) (dir : String) (i : Nat) :
    (mkRecord details vid tr).transcript_path =
      "transcripts/" ++ vid ++ ".txt" ∧
    ((save_output videos dir).csvRows[i]?.bind fun row => row[7]?) =
      (videos[i]?).map (·.transcript_path) := by
  constructor
  · show "transcripts" ++ "/" ++ (vid ++ ".txt") = "transcripts/" ++ vid ++ ".txt"
    rw [← String.append_assoc]
    exact rfl
  · cases hv : videos[i]? with
    | none =>
      simp [save_output, hv]
    | some v =>
      simp [save_output, hv, fieldnames, recordField]

/-- C8: the writer emits exactly one CSV row per record, in input order,
with exactly the fixed column set, and writes the transcript file
`<output_dir>/transcripts/<video_id>.txt` — containing exactly the
record's transcript text — if and only if that record's transcript is
non-empty. -/
theorem C8_writer_output (videos : List VideoRecord) (dir : String) :
    (save_output videos dir).csvHeader = fieldnames ∧
    (save_output videos dir).csvRows =
      videos.map (fun v =>
        [v.video_id, v.publishedAt.getD "", v.title.getD "",
         v.description.getD "", v.viewCount.getD "", v.likeCount.getD "",
         v.commentCount.getD "", v.transcript_path]) ∧
    (∀ v ∈ videos,
      ((pathJoin dir (pathJoin "transcripts" (v.video_id ++ ".txt")),
          v.transcript) ∈ (save_output videos dir).files ↔
        v.transcript ≠ "")) ∧
    (∀ f ∈ (save_output videos dir).files, f.2 ≠ "") := by
  refine ⟨rfl, rfl, ?_, ?_⟩
  · intro v hv
    constructor
    · intro hmem
      simp only [save_output, List.mem_map, List.mem_filter, bne_iff_ne,
        ne_eq] at hmem
      rcases hmem with ⟨v', ⟨_, hne⟩, heq⟩
      have h2 : v'.transcript = v.transcript := congrArg Prod.snd heq
      rw [← h2]
      exact hne
    · intro hne
      simp only [save_output, List.mem_map, List.mem_filter, bne_iff_ne,
        ne_eq]
      exact ⟨v, ⟨hv, hne⟩, rfl⟩
  · intro f hf
    simp only [save_output, List.mem_map, List.mem_filter, bne_iff_ne,
      ne_eq] at hf
    rcases hf with ⟨v', ⟨_, hne⟩, rfl⟩
    exact hne

theorem C8_witness :
    (pathJoin "out" (pathJoin "transcripts" ("a" ++ ".txt")), "hello") ∈
      (save_output [⟨"a", none, none, none, none, none, none,
        "transcripts/a.txt", "hello"⟩] "out").files :=
  ((C8_writer_output [⟨"a", none, none, none, none, none, none,
      "transcripts/a.txt", "hello"⟩] "out").2.2.1
    ⟨"a", none, none, none, none, none, none, "transcripts/a.txt", "hello"⟩
    (by simp)).mpr (by decide)

/-- C10: when the listed video set is empty, the run after listing still
completes successfully: the writer creates the output directory and the
transcripts subdirectory, the CSV consists of exactly the header row with
no data rows, and no transcript files are written. -/
theorem C10_empty_listing (dapi : List String → List DetailItem)
    (tapi : String → Except TranscriptError (List TranscriptSegment))
    (dir : String) :
    run_after_listing dapi tapi [] dir =
      .ok { dirsCreated := [dir, pathJoin dir "transcripts"],
            csvHeader := fieldnames, csvRows := [], files := [] } := by
  simp [run_after_listing, main_enrich, enrichChunks, chunked, save_output]

end YTFetch
